import Mathlib

/-!
Verification of the crypto-volatility risk analyzer (backend.py, frontend.py).

The numeric pipeline in `backend.py` runs on IEEE doubles via pandas/numpy.
The embedding models a numeric value as an exact rational together with the
three IEEE special values (+inf, -inf, NaN) that the pipeline can actually
produce and that its NaN-coercion steps inspect; rounding of finite values is
idealized to exact rational arithmetic, which is faithful for every claim at
stake (they concern NaN/inf propagation, branch boundaries, and algebraic
identities, not rounding error).

The square root in `vol = df['daily_return'].std() * np.sqrt(365)` is
irrational, so the embedding carries the volatility SQUARED
(`volatilitySq = var * 365`): `std` is NaN exactly when the variance is NaN
(the variance is never negative), so the NaN-coercion step commutes with
squaring, and since the true volatility is nonnegative, each strict threshold
comparison `vol > c` (c = 100, 60, 30) is equivalent to `volatilitySq > c^2`
(`get_risk_level_sq` below; `get_risk_level` itself is also embedded directly,
over unsquared inputs, for the claims about it).
-/

namespace CryptoRisk

/-- An IEEE-double-like value: an exact finite rational, +infinity, -infinity,
or NaN. Models the values flowing through the pandas pipeline. -/
inductive Fl where
  | fin : ℚ → Fl
  | pinf : Fl
  | ninf : Fl
  | nan : Fl
deriving DecidableEq

/-- NaN test, modelling `np.isnan` / the NaN-ness that `.fillna` inspects. -/
def Fl.isNaN : Fl → Bool
  | Fl.nan => true
  | _ => false

/-- IEEE negation. -/
def Fl.neg : Fl → Fl
  | Fl.fin a => Fl.fin (-a)
  | Fl.pinf => Fl.ninf
  | Fl.ninf => Fl.pinf
  | Fl.nan => Fl.nan

/-- IEEE addition (exact on finite values): NaN absorbs, inf + (-inf) = NaN. -/
def Fl.add : Fl → Fl → Fl
  | Fl.nan, _ => Fl.nan
  | _, Fl.nan => Fl.nan
  | Fl.pinf, Fl.ninf => Fl.nan
  | Fl.ninf, Fl.pinf => Fl.nan
  | Fl.pinf, _ => Fl.pinf
  | _, Fl.pinf => Fl.pinf
  | Fl.ninf, _ => Fl.ninf
  | _, Fl.ninf => Fl.ninf
  | Fl.fin a, Fl.fin b => Fl.fin (a + b)

/-- IEEE subtraction: a - b = a + (-b). -/
def Fl.sub (a b : Fl) : Fl := Fl.add a (Fl.neg b)

/-- IEEE multiplication (exact on finite values): NaN absorbs, inf * 0 = NaN,
otherwise infinities follow the sign rule. -/
def Fl.mul : Fl → Fl → Fl
  | Fl.nan, _ => Fl.nan
  | _, Fl.nan => Fl.nan
  | Fl.pinf, Fl.pinf => Fl.pinf
  | Fl.pinf, Fl.ninf => Fl.ninf
  | Fl.ninf, Fl.pinf => Fl.ninf
  | Fl.ninf, Fl.ninf => Fl.pinf
  | Fl.pinf, Fl.fin b => if 0 < b then Fl.pinf else if b < 0 then Fl.ninf else Fl.nan
  | Fl.fin a, Fl.pinf => if 0 < a then Fl.pinf else if a < 0 then Fl.ninf else Fl.nan
  | Fl.ninf, Fl.fin b => if 0 < b then Fl.ninf else if b < 0 then Fl.pinf else Fl.nan
  | Fl.fin a, Fl.ninf => if 0 < a then Fl.ninf else if a < 0 then Fl.pinf else Fl.nan
  | Fl.fin a, Fl.fin b => Fl.fin (a * b)

/-- IEEE division (exact on finite values): NaN absorbs, inf/inf = NaN,
finite/0 = signed infinity (or NaN for 0/0), finite/inf = 0. The model has a
single unsigned zero, treated as +0 when it appears as a divisor. -/
def Fl.div : Fl → Fl → Fl
  | Fl.nan, _ => Fl.nan
  | _, Fl.nan => Fl.nan
  | Fl.pinf, Fl.pinf => Fl.nan
  | Fl.pinf, Fl.ninf => Fl.nan
  | Fl.ninf, Fl.pinf => Fl.nan
  | Fl.ninf, Fl.ninf => Fl.nan
  | Fl.pinf, Fl.fin b => if 0 ≤ b then Fl.pinf else Fl.ninf
  | Fl.ninf, Fl.fin b => if 0 ≤ b then Fl.ninf else Fl.pinf
  | Fl.fin _, Fl.pinf => Fl.fin 0
  | Fl.fin _, Fl.ninf => Fl.fin 0
  | Fl.fin a, Fl.fin b =>
      if b = 0 then (if 0 < a then Fl.pinf else if a < 0 then Fl.ninf else Fl.nan)
      else Fl.fin (a / b)

/-- IEEE strict less-than: any comparison with NaN is false. -/
def Fl.blt : Fl → Fl → Bool
  | Fl.nan, _ => false
  | _, Fl.nan => false
  | Fl.pinf, _ => false
  | _, Fl.pinf => true
  | Fl.ninf, Fl.ninf => false
  | Fl.ninf, _ => true
  | _, Fl.ninf => false
  | Fl.fin a, Fl.fin b => decide (a < b)

/-- Binary minimum over non-NaN values (used by the skip-NaN reduction). -/
def Fl.minOp (a b : Fl) : Fl := if Fl.blt a b then a else b

/-- Models `x.fillna(0)` elementwise / `if np.isnan(x): x = 0`. -/
def fillna0 (x : Fl) : Fl := if x.isNaN then Fl.fin 0 else x

/-- Sum of a list of Fl values (numpy/pandas summation; NaN/inf propagate). -/
def flSum (xs : List Fl) : Fl := xs.foldr Fl.add (Fl.fin 0)

/-- Models `Series.min()` with the default skipna=True: the minimum of the
non-NaN entries, NaN when there are none. -/
def nanmin : List Fl → Fl
  | [] => Fl.nan
  | x :: xs =>
    let r := nanmin xs
    if x.isNaN then r
    else if r.isNaN then x
    else Fl.minOp x r

/-- Models pandas `Series.var`-style sample variance with skipna=True and
ddof=1 (`Series.std()` squared): NaN entries of the input are masked out;
if fewer than 2 (= ddof + 1) non-NaN values remain the result is NaN;
otherwise sum((x - mean)^2) / (count - 1), computed in Fl arithmetic so that
an infinite entry propagates to a NaN result exactly as in numpy/pandas. -/
def nanvar (xs : List Fl) : Fl :=
  let vals := xs.filter (fun x => !x.isNaN)
  if vals.length < 2 then Fl.nan
  else
    let n : Fl := Fl.fin (vals.length : ℚ)
    let mean := Fl.div (flSum vals) n
    let sq := flSum (vals.map (fun x => Fl.mul (Fl.sub x mean) (Fl.sub x mean)))
    Fl.div sq (Fl.sub n (Fl.fin 1))

/-- Tail of `df['price'].pct_change()`: given the previous price, emits
`p / prev - 1` for each successive price (pandas computes p[i]/p[i-1] - 1). -/
def pctAux (prev : ℚ) : List ℚ → List Fl
  | [] => []
  | p :: ps => Fl.sub (Fl.div (Fl.fin p) (Fl.fin prev)) (Fl.fin 1) :: pctAux p ps

/-- Models `df['price'].pct_change()`: NaN for the first sample (no prior
sample), then the percent-change ratios. -/
def pctChange : List ℚ → List Fl
  | [] => []
  | p :: ps => Fl.nan :: pctAux p ps

/-- Tail recursion for `cummax` with running maximum `m`. -/
def cummaxAux (m : ℚ) : List ℚ → List ℚ
  | [] => []
  | p :: ps => max m p :: cummaxAux (max m p) ps

/-- Models `df['price'].cummax()`: running maximum of the price series. -/
def cummax : List ℚ → List ℚ
  | [] => []
  | p :: ps => cummaxAux p (p :: ps)

/-- One drawdown entry: `(price - peak) / peak * 100` in Fl arithmetic. -/
def ddTerm (p m : ℚ) : Fl :=
  Fl.mul (Fl.div (Fl.sub (Fl.fin p) (Fl.fin m)) (Fl.fin m)) (Fl.fin 100)

/-- Models `(df['price'] - df['price'].cummax()) / df['price'].cummax() * 100`
elementwise. -/
def drawdowns (l : List ℚ) : List Fl := List.zipWith ddTerm l (cummax l)

/-- Fused form of `drawdowns` carrying the running peak, used in proofs. -/
def ddAux (m : ℚ) : List ℚ → List Fl
  | [] => []
  | p :: ps => ddTerm p (max m p) :: ddAux (max m p) ps

/-- `get_risk_level` from backend.py: returns the (color, label) pair chosen
by the strict top-down threshold ladder on the (annualized) volatility. -/
def get_risk_level (vol : Fl) : String × String :=
  if Fl.blt (Fl.fin 100) vol then ("#ff2b2b", "EXTREME ☢️")
  else if Fl.blt (Fl.fin 60) vol then ("#ff9f1c", "HIGH 🔥")
  else if Fl.blt (Fl.fin 30) vol then ("#fbd400", "MODERATE ⚖️")
  else ("#2ec4b6", "LOW 🛡️")

/-- `get_risk_level` re-expressed on the squared volatility: since the actual
volatility is a nonnegative square root, `vol > c` iff `vol^2 > c^2` for the
nonnegative thresholds c = 100, 60, 30 (`get_risk_level_sq_eq` below proves
the agreement). The pipeline record carries the squared volatility, so its
classification step uses this form. -/
def get_risk_level_sq (volSq : Fl) : String × String :=
  if Fl.blt (Fl.fin 10000) volSq then ("#ff2b2b", "EXTREME ☢️")
  else if Fl.blt (Fl.fin 3600) volSq then ("#ff9f1c", "HIGH 🔥")
  else if Fl.blt (Fl.fin 900) volSq then ("#fbd400", "MODERATE ⚖️")
  else ("#2ec4b6", "LOW 🛡️")

/-- The MarketDataResponse shape from backend.py. `volatilitySq` is the
squared volatility (see the file-level comment); `timestamps` are in
nanoseconds as in the source (`df.index.astype('int64')`). -/
structure RiskMetrics where
  prices : List ℚ
  current_price : ℚ
  volatilitySq : Fl
  max_drawdown : Fl
  risk_level : String
  risk_color : String
  daily_returns : List Fl
  timestamps : List Int
deriving DecidableEq

/-- The metric computation of `fetch_and_analyze_data` on a non-empty parsed
`prices` payload (list of (timestamp-ms, price) pairs), line by line:
`daily_return = price.pct_change() * 100`; `current_price = price.iloc[-1]`;
if len < 2 then vol = 0 and max_drawdown = 0 else vol = std * sqrt(365)
(carried squared: var * 365) and max_drawdown = min of the drawdown series;
NaN-coercion of vol and max_drawdown; classification; `fillna(0)` on the
returned daily returns; timestamps in nanoseconds (ms * 1000000). -/
def computeMetrics (samples : List (Int × ℚ)) : RiskMetrics :=
  let prices := samples.map Prod.snd
  let daily_return := (pctChange prices).map (fun r => Fl.mul r (Fl.fin 100))
  let current_price := prices.getLastD 0
  let vd := if prices.length < 2 then (Fl.fin 0, Fl.fin 0)
            else (Fl.mul (nanvar daily_return) (Fl.fin 365), nanmin (drawdowns prices))
  let vol := fillna0 vd.1
  let max_drawdown := fillna0 vd.2
  let rc := get_risk_level_sq vol
  { prices := prices
    current_price := current_price
    volatilitySq := vol
    max_drawdown := max_drawdown
    risk_level := rc.2
    risk_color := rc.1
    daily_returns := daily_return.map fillna0
    timestamps := samples.map (fun s => s.1 * 1000000) }

/-- Exceptions the handler can propagate: an HTTPException (status, detail),
or the pandas IndexError from `.iloc[-1]` on an empty frame. -/
inductive Exn where
  | httpExn : Nat → String → Exn
  | indexError : Exn
deriving DecidableEq

/-- `str(e)` of the exceptions: Starlette's HTTPException stringifies as
"<status>: <detail>"; the pandas IndexError carries its usual message. -/
def exnStr : Exn → String
  | Exn.httpExn code detail => toString code ++ ": " ++ detail
  | Exn.indexError => "single positional indexer is out-of-bounds"

/-- `fetch_and_analyze_data` from backend.py, with the network fetch
abstracted to its parsed result: `none` models a response without a "prices"
field (the function returns None), `some samples` models the parsed
`data["prices"]`. On an empty list, `df['price'].iloc[-1]` raises IndexError
(re-raised by the function's own `except` clause); otherwise the metrics
dictionary is returned. -/
def fetch_and_analyze_data (data : Option (List (Int × ℚ))) :
    Except Exn (Option RiskMetrics) :=
  match data with
  | none => Except.ok none
  | some samples =>
    if samples.isEmpty then Except.error Exn.indexError
    else Except.ok (some (computeMetrics samples))

/-- The HTTP-level outcome of the /analyze endpoint. -/
inductive HttpResult where
  | ok : RiskMetrics → HttpResult
  | httpError : Nat → String → HttpResult
deriving DecidableEq

/-- `analyze_market` from backend.py. The entire body, including the
`raise HTTPException(404)` for a None result, sits inside the `try` block;
`except Exception as e` catches every exception (HTTPException included,
since it subclasses Exception) and raises `HTTPException(500, str(e))`. -/
def analyze_market (data : Option (List (Int × ℚ))) : HttpResult :=
  let tryBody : Except Exn RiskMetrics :=
    match fetch_and_analyze_data data with
    | Except.error e => Except.error e
    | Except.ok none => Except.error (Exn.httpExn 404 "Coin data not found")
    | Except.ok (some m) => Except.ok m
  match tryBody with
  | Except.ok m => HttpResult.ok m
  | Except.error e => HttpResult.httpError 500 (exnStr e)

/-- The registration handler's state update from frontend.py
(`show_register`): the users store is a mapping username -> password,
modelled as an association list (insertion appends, as for a Python dict
with a fresh key). The branches in source order: existing username -> error
(store unchanged); password mismatch -> error; empty username or password
(Python falsiness of str) -> error; otherwise insert the new entry. -/
def register (users : List (String × String))
    (new_user new_pass confirm_pass : String) : List (String × String) :=
  if (users.lookup new_user).isSome then users
  else if new_pass ≠ confirm_pass then users
  else if new_user = "" ∨ new_pass = "" then users
  else users ++ [(new_user, new_pass)]

/-- Spec-side definition (§4.1 step 1, for the refinement claims): the daily
percent returns for samples i ≥ 1, `(price[i] - price[i-1]) / price[i-1] *
100`, with an undefined value (zero divisor) coerced to 0 — here via the
junk-value convention q / 0 = 0 of ℚ. Running previous-price accumulator. -/
def specDailyReturnsAux (prev : ℚ) : List ℚ → List ℚ
  | [] => []
  | p :: ps => (p - prev) / prev * 100 :: specDailyReturnsAux p ps

/-- Spec-side definition: the daily percent returns of a price series,
excluding the synthetic leading 0 of sample 0. -/
def specDailyReturns : List ℚ → List ℚ
  | [] => []
  | p :: ps => specDailyReturnsAux p ps

/-- Spec-side definition (§4.1 step 3): the sample variance (n-1 degrees of
freedom) of a list of rationals — the square of the sample standard
deviation. For a list of length < 2 the n-1 denominator is 0 and the
junk-value convention gives 0. -/
def sampleVarQ (rs : List ℚ) : ℚ :=
  let mean := rs.sum / (rs.length : ℚ)
  (rs.map (fun x => (x - mean) * (x - mean))).sum / ((rs.length : ℚ) - 1)

/-- Spec-side definition (§4.1 step 4): drawdown entries
`(price[i] - running_peak[i]) / running_peak[i] * 100` where running_peak is
the maximum price at or before i, carried as the accumulator `m`. -/
def specDDAux (m : ℚ) : List ℚ → List ℚ
  | [] => []
  | p :: ps => (p - max m p) / max m p * 100 :: specDDAux (max m p) ps

/-- Spec-side definition: max_drawdown = the minimum drawdown across all
positions. The fold is seeded with 0, which does not change the minimum
because the drawdown at position 0 is (p - p)/p * 100 = 0. -/
def specMaxDrawdown : List ℚ → ℚ
  | [] => 0
  | p :: ps => (specDDAux p (p :: ps)).foldr min 0

/-! Helper lemmas. -/

theorem Fl.isNaN_iff {x : Fl} : x.isNaN = true ↔ x = Fl.nan := by
  cases x <;> simp [Fl.isNaN]

theorem fillna0_isNaN (x : Fl) : (fillna0 x).isNaN = false := by
  cases x <;> simp [fillna0, Fl.isNaN]

theorem fillna0_fin (q : ℚ) : fillna0 (Fl.fin q) = Fl.fin q := rfl

theorem fillna0_of_not_nan {x : Fl} (h : x.isNaN = false) : fillna0 x = x := by
  simp [fillna0, h]

theorem Fl.sub_fin (a b : ℚ) : Fl.sub (Fl.fin a) (Fl.fin b) = Fl.fin (a - b) := by
  simp [Fl.sub, Fl.neg, Fl.add, sub_eq_add_neg]

theorem Fl.div_fin {a b : ℚ} (hb : b ≠ 0) :
    Fl.div (Fl.fin a) (Fl.fin b) = Fl.fin (a / b) := by
  simp [Fl.div, hb]

theorem Fl.mul_fin (a b : ℚ) : Fl.mul (Fl.fin a) (Fl.fin b) = Fl.fin (a * b) := rfl

theorem Fl.minOp_fin (a b : ℚ) :
    Fl.minOp (Fl.fin a) (Fl.fin b) = Fl.fin (min a b) := by
  by_cases h : a < b
  · simp [Fl.minOp, Fl.blt, h, min_eq_left h.le]
  · simp [Fl.minOp, Fl.blt, h, min_eq_right (not_lt.1 h)]

theorem pctAux_length (prev : ℚ) (ps : List ℚ) :
    (pctAux prev ps).length = ps.length := by
  induction ps generalizing prev with
  | nil => rfl
  | cons p t ih => simp [pctAux, ih]

theorem pctChange_length (l : List ℚ) : (pctChange l).length = l.length := by
  cases l with
  | nil => rfl
  | cons p t => simp [pctChange, pctAux_length]

theorem zipWith_cummaxAux (ps : List ℚ) :
    ∀ m, List.zipWith ddTerm ps (cummaxAux m ps) = ddAux m ps := by
  induction ps with
  | nil => intro m; rfl
  | cons p t ih => intro m; simp [cummaxAux, ddAux, ih]

theorem drawdowns_cons (p : ℚ) (ps : List ℚ) :
    drawdowns (p :: ps) = ddAux p (p :: ps) := by
  simp [drawdowns, cummax, zipWith_cummaxAux]

theorem foldr_min_zero_nonpos (l : List ℚ) : l.foldr min 0 ≤ 0 := by
  induction l with
  | nil => exact le_refl 0
  | cons x t ih => exact le_trans (min_le_right x _) ih

theorem ddTerm_of_ne (p : ℚ) {m : ℚ} (hm : m ≠ 0) :
    ddTerm p m = Fl.fin ((p - m) / m * 100) := by
  rw [ddTerm, Fl.sub_fin, Fl.div_fin hm, Fl.mul_fin]

theorem ddTerm_zero : ddTerm 0 0 = Fl.nan := by
  norm_num [ddTerm, Fl.sub, Fl.neg, Fl.add, Fl.div, Fl.mul]

theorem nanmin_ddAux_spec :
    ∀ (ps : List ℚ) (m : ℚ), 0 ≤ m → (∀ p ∈ ps, 0 ≤ p) →
      fillna0 (nanmin (ddAux m ps)) = Fl.fin ((specDDAux m ps).foldr min 0) := by
  intro ps
  induction ps with
  | nil => intro m _ _; rfl
  | cons p t ih =>
    intro m hm hall
    have hp : 0 ≤ p := hall p (List.mem_cons_self p t)
    have hpk : 0 ≤ max m p := le_trans hm (le_max_left m p)
    have htail := ih (max m p) hpk (fun q hq => hall q (List.mem_cons_of_mem p hq))
    by_cases h0 : max m p = 0
    · have hp0 : p = 0 := le_antisymm (h0 ▸ le_max_right m p) hp
      have hhead : ddTerm p (max m p) = Fl.nan := by rw [h0, hp0]; exact ddTerm_zero
      have hspec : (p - max m p) / max m p * 100 = 0 := by rw [h0, hp0]; norm_num
      have hS : (specDDAux (max m p) t).foldr min 0 ≤ 0 := foldr_min_zero_nonpos _
      calc fillna0 (nanmin (ddAux m (p :: t)))
          = fillna0 (nanmin (ddAux (max m p) t)) := by
            simp [ddAux, nanmin, hhead, Fl.isNaN]
        _ = Fl.fin ((specDDAux (max m p) t).foldr min 0) := htail
        _ = Fl.fin ((specDDAux m (p :: t)).foldr min 0) := by
            simp [specDDAux, hspec, min_eq_right hS]
    · have hmpos : 0 < max m p := lt_of_le_of_ne hpk (Ne.symm h0)
      have hhead : ddTerm p (max m p)
          = Fl.fin ((p - max m p) / max m p * 100) := ddTerm_of_ne p h0
      set v : ℚ := (p - max m p) / max m p * 100 with hv
      have hvle : v ≤ 0 := by
        have h1 : p - max m p ≤ 0 := sub_nonpos.mpr (le_max_right m p)
        have h2 : (p - max m p) / max m p ≤ 0 :=
          div_nonpos_of_nonpos_of_nonneg h1 hpk
        nlinarith
      by_cases hR : (nanmin (ddAux (max m p) t)).isNaN = true
      · have hRnan : nanmin (ddAux (max m p) t) = Fl.nan := Fl.isNaN_iff.mp hR
        have hS0 : (specDDAux (max m p) t).foldr min 0 = 0 := by
          have := htail
          rw [hRnan] at this
          simpa [fillna0, Fl.isNaN] using this.symm
        calc fillna0 (nanmin (ddAux m (p :: t)))
            = Fl.fin v := by
              simp [ddAux, nanmin, hhead, hRnan, Fl.isNaN, fillna0]
          _ = Fl.fin ((specDDAux m (p :: t)).foldr min 0) := by
              simp [specDDAux, hS0, ← hv, min_eq_left hvle]
      · have hRfin : nanmin (ddAux (max m p) t)
            = Fl.fin ((specDDAux (max m p) t).foldr min 0) := by
          rw [← fillna0_of_not_nan (Bool.of_not_eq_true hR)]
          exact htail
        calc fillna0 (nanmin (ddAux m (p :: t)))
            = Fl.fin (min v ((specDDAux (max m p) t).foldr min 0)) := by
              simp [ddAux, nanmin, hhead, hRfin, Fl.isNaN, Fl.minOp_fin, fillna0]
          _ = Fl.fin ((specDDAux m (p :: t)).foldr min 0) := by
              simp [specDDAux, ← hv]

theorem specDDAux_chain :
    ∀ (ps : List ℚ) (p m : ℚ), m ≤ p → List.Chain (· < ·) p ps →
      specDDAux m (p :: ps) = List.replicate (ps.length + 1) 0 := by
  intro ps
  induction ps with
  | nil =>
    intro p m hmp _
    simp [specDDAux, max_eq_right hmp]
  | cons q t ih =>
    intro p m hmp hch
    cases hch with
    | cons hpq hch2 =>
      have hrec := ih q p (le_of_lt hpq) hch2
      simp only [specDDAux, max_eq_right hmp] at hrec ⊢
      rw [hrec]
      simp [List.replicate_succ]

theorem foldr_min_replicate (n : ℕ) :
    (List.replicate n (0 : ℚ)).foldr min 0 = 0 := by
  induction n with
  | zero => rfl
  | succ k ih => simp [List.replicate_succ, ih]

theorem computeMetrics_max_drawdown (samples : List (Int × ℚ)) :
    (computeMetrics samples).max_drawdown =
      fillna0 (if samples.length < 2 then Fl.fin 0
               else nanmin (drawdowns (samples.map Prod.snd))) := by
  by_cases h : samples.length < 2 <;> simp [computeMetrics, h]

theorem computeMetrics_volatilitySq (samples : List (Int × ℚ)) :
    (computeMetrics samples).volatilitySq =
      fillna0 (if samples.length < 2 then Fl.fin 0
               else Fl.mul (nanvar ((pctChange (samples.map Prod.snd)).map
                 (fun r => Fl.mul r (Fl.fin 100)))) (Fl.fin 365)) := by
  by_cases h : samples.length < 2 <;> simp [computeMetrics, h]

theorem computeMetrics_daily_returns (samples : List (Int × ℚ)) :
    (computeMetrics samples).daily_returns =
      ((pctChange (samples.map Prod.snd)).map
        (fun r => Fl.mul r (Fl.fin 100))).map fillna0 := by
  simp [computeMetrics]

theorem computeMetrics_prices (samples : List (Int × ℚ)) :
    (computeMetrics samples).prices = samples.map Prod.snd := by
  simp [computeMetrics]

theorem computeMetrics_timestamps (samples : List (Int × ℚ)) :
    (computeMetrics samples).timestamps = samples.map (fun s => s.1 * 1000000) := by
  simp [computeMetrics]

theorem specDailyReturnsAux_length (prev : ℚ) (ps : List ℚ) :
    (specDailyReturnsAux prev ps).length = ps.length := by
  induction ps generalizing prev with
  | nil => rfl
  | cons p t ih => simp [specDailyReturnsAux, ih]

theorem pct_map_pos :
    ∀ (ps : List ℚ) (prev : ℚ), 0 < prev → (∀ p ∈ ps, 0 < p) →
      (pctAux prev ps).map (fun r => Fl.mul r (Fl.fin 100))
        = (specDailyReturnsAux prev ps).map Fl.fin := by
  intro ps
  induction ps with
  | nil => intro prev _ _; rfl
  | cons p t ih =>
    intro prev hprev hall
    have hp : 0 < p := hall p (List.mem_cons_self p t)
    have hrec := ih p hp (fun q hq => hall q (List.mem_cons_of_mem p hq))
    simp only [pctAux, specDailyReturnsAux, List.map_cons, hrec]
    rw [Fl.div_fin (ne_of_gt hprev), Fl.sub_fin, Fl.mul_fin]
    congr 1
    field_simp

theorem flSum_map_fin (rs : List ℚ) : flSum (rs.map Fl.fin) = Fl.fin rs.sum := by
  induction rs with
  | nil => rfl
  | cons r t ih => simp [flSum, Fl.add, List.sum_cons] at ih ⊢; rw [ih]

theorem filter_map_fin_not_nan (rs : List ℚ) :
    (rs.map Fl.fin).filter (fun x => !x.isNaN) = rs.map Fl.fin := by
  induction rs with
  | nil => rfl
  | cons r t ih => simp [List.filter, Fl.isNaN, ih]

theorem sampleVarQ_singleton (r : ℚ) : sampleVarQ [r] = 0 := by
  norm_num [sampleVarQ]

theorem nanvar_nan_cons (rs : List ℚ) :
    nanvar (Fl.nan :: rs.map Fl.fin) =
      if rs.length < 2 then Fl.nan else Fl.fin (sampleVarQ rs) := by
  have hfil : (Fl.nan :: rs.map Fl.fin).filter (fun x => !x.isNaN) = rs.map Fl.fin := by
    simp [List.filter, Fl.isNaN, filter_map_fin_not_nan]
  unfold nanvar
  rw [hfil]
  simp only [List.length_map]
  by_cases h2 : rs.length < 2
  · simp [h2]
  · have hn2 : (2 : ℚ) ≤ (rs.length : ℚ) := by exact_mod_cast not_lt.1 h2
    have hn0 : ((rs.length : ℚ)) ≠ 0 := by linarith
    have hn1 : ((rs.length : ℚ)) - 1 ≠ 0 := by linarith
    simp only [h2, if_false]
    rw [flSum_map_fin, Fl.div_fin hn0, Fl.sub_fin]
    have hmap : (rs.map Fl.fin).map
        (fun x => Fl.mul (Fl.sub x (Fl.fin (rs.sum / (rs.length : ℚ))))
                          (Fl.sub x (Fl.fin (rs.sum / (rs.length : ℚ)))))
        = (rs.map (fun x => (x - rs.sum / (rs.length : ℚ))
                          * (x - rs.sum / (rs.length : ℚ)))).map Fl.fin := by
      simp [List.map_map, Function.comp, Fl.sub_fin, Fl.mul_fin]
    rw [hmap, flSum_map_fin, Fl.div_fin hn1]
    simp [sampleVarQ]

theorem lookup_append_left (l l2 : List (String × String)) (k : String)
    (h : (l.lookup k).isSome = true) : (l ++ l2).lookup k = l.lookup k := by
  induction l with
  | nil => simp [List.lookup] at h
  | cons a t ih =>
    obtain ⟨ka, va⟩ := a
    cases hk : (k == ka) with
    | true => simp [List.lookup, hk]
    | false =>
      simp only [List.lookup, hk] at h
      simp only [List.cons_append, List.lookup, hk]
      exact ih h

theorem get_risk_level_cases (v : Fl) :
    get_risk_level v = ("#ff2b2b", "EXTREME ☢️") ∨
    get_risk_level v = ("#ff9f1c", "HIGH 🔥") ∨
    get_risk_level v = ("#fbd400", "MODERATE ⚖️") ∨
    get_risk_level v = ("#2ec4b6", "LOW 🛡️") := by
  unfold get_risk_level
  split_ifs
  · exact Or.inl rfl
  · exact Or.inr (Or.inl rfl)
  · exact Or.inr (Or.inr (Or.inl rfl))
  · exact Or.inr (Or.inr (Or.inr rfl))

theorem get_risk_level_sq_eq (v : ℚ) (hv : 0 ≤ v) :
    get_risk_level_sq (Fl.fin (v * v)) = get_risk_level (Fl.fin v) := by
  have h1 : ((10000 : ℚ) < v * v) ↔ ((100 : ℚ) < v) := by
    constructor <;> intro h <;> nlinarith
  have h2 : ((3600 : ℚ) < v * v) ↔ ((60 : ℚ) < v) := by
    constructor <;> intro h <;> nlinarith
  have h3 : ((900 : ℚ) < v * v) ↔ ((30 : ℚ) < v) := by
    constructor <;> intro h <;> nlinarith
  simp [get_risk_level, get_risk_level_sq, Fl.blt, h1, h2, h3]

/-! Claim theorems. -/

/-- Claim C1, counterexample to the claim as stated: for the empty (but
present) price series, the transform does not return the Empty/None sentinel
— it raises (IndexError from `df['price'].iloc[-1]` on an empty frame),
which is a different outcome from the sentinel `ok none`. -/
theorem c1_counterexample :
    fetch_and_analyze_data (some []) = Except.error Exn.indexError ∧
    (Except.error Exn.indexError : Except Exn (Option RiskMetrics)) ≠
      Except.ok none :=
  ⟨rfl, fun h => Except.noConfusion h⟩

/-- Claim C1 (amended): the Empty/None sentinel is returned exactly when the
upstream response lacks the price data (`data = none`); a present-but-empty
series raises an IndexError instead of returning the sentinel; and a
populated RiskMetrics is produced exactly for non-empty input. -/
theorem c1_amended_sentinel :
    ∀ (data : Option (List (Int × ℚ))),
      (fetch_and_analyze_data data = Except.ok none ↔ data = none) ∧
      (∀ l, data = some l → l = [] →
         fetch_and_analyze_data data = Except.error Exn.indexError) ∧
      (∀ l, data = some l → l ≠ [] →
         fetch_and_analyze_data data = Except.ok (some (computeMetrics l))) := by
  intro data
  cases data with
  | none =>
    refine ⟨by simp [fetch_and_analyze_data], ?_, ?_⟩
    · intro l h; exact absurd h (by simp)
    · intro l h; exact absurd h (by simp)
  | some l =>
    refine ⟨?_, ?_, ?_⟩
    · constructor
      · intro h
        by_cases he : l.isEmpty <;> simp [fetch_and_analyze_data, he] at h
      · intro h; exact absurd h (by simp)
    · intro l2 hl2 hnil
      injection hl2 with h
      subst h; subst hnil; rfl
    · intro l2 hl2 hne
      injection hl2 with h
      subst h
      cases l with
      | nil => exact absurd rfl hne
      | cons a t => rfl

/-- Witness for C1's amended theorem at a concrete non-empty input. -/
theorem c1_witness :
    fetch_and_analyze_data (some [((0 : Int), (1 : ℚ))]) =
      Except.ok (some (computeMetrics [((0 : Int), (1 : ℚ))])) :=
  (c1_amended_sentinel (some [((0 : Int), (1 : ℚ))])).2.2
    [((0 : Int), (1 : ℚ))] rfl (by simp)

/-- Claim C5: the risk ladder is evaluated top-down with strict comparisons,
first match winning (EXTREME above 100, HIGH in (60, 100], MODERATE in
(30, 60], LOW at or below 30), and in particular volatility exactly 100
yields HIGH while 100.0001 yields EXTREME. -/
theorem c5_threshold_ladder :
    (∀ v : ℚ,
       (100 < v → get_risk_level (Fl.fin v) = ("#ff2b2b", "EXTREME ☢️")) ∧
       (60 < v → v ≤ 100 → get_risk_level (Fl.fin v) = ("#ff9f1c", "HIGH 🔥")) ∧
       (30 < v → v ≤ 60 → get_risk_level (Fl.fin v) = ("#fbd400", "MODERATE ⚖️")) ∧
       (v ≤ 30 → get_risk_level (Fl.fin v) = ("#2ec4b6", "LOW 🛡️"))) ∧
    get_risk_level (Fl.fin 100) = ("#ff9f1c", "HIGH 🔥") ∧
    get_risk_level (Fl.fin (1000001 / 10000)) = ("#ff2b2b", "EXTREME ☢️") := by
  refine ⟨fun v => ⟨?_, ?_, ?_, ?_⟩, ?_, ?_⟩
  · intro h; simp [get_risk_level, Fl.blt, h]
  · intro h h2
    have h3 : ¬ (100 : ℚ) < v := not_lt.2 h2
    simp [get_risk_level, Fl.blt, h, h3]
  · intro h h2
    have h3 : ¬ (100 : ℚ) < v := by linarith
    have h4 : ¬ (60 : ℚ) < v := not_lt.2 h2
    simp [get_risk_level, Fl.blt, h, h3, h4]
  · intro h
    have h3 : ¬ (100 : ℚ) < v := by linarith
    have h4 : ¬ (60 : ℚ) < v := by linarith
    have h5 : ¬ (30 : ℚ) < v := not_lt.2 h
    simp [get_risk_level, Fl.blt, h3, h4, h5]
  · norm_num [get_risk_level, Fl.blt]
  · norm_num [get_risk_level, Fl.blt]

/-- Witness for C5 at the concrete volatility 70 (HIGH band). -/
theorem c5_witness : get_risk_level (Fl.fin 70) = ("#ff9f1c", "HIGH 🔥") :=
  ((c5_threshold_ladder.1 70).2.1 (by norm_num) (by norm_num))

/-- Claim C7: the analysis transform is deterministic and side-effect-free;
in the embedding it is a pure function of the parsed input, so two runs on
the same input are identical records (no hidden state exists to vary). -/
theorem c7_deterministic :
    ∀ (data : Option (List (Int × ℚ))),
      fetch_and_analyze_data data = fetch_and_analyze_data data ∧
      analyze_market data = analyze_market data :=
  fun _ => ⟨rfl, rfl⟩

/-- Claim C8: evaluation at the failing input. When the upstream response
lacks price data, the endpoint does NOT answer 404: the
`raise HTTPException(404)` sits inside the `try` block, the blanket
`except Exception` catches it, and the endpoint answers 500 with the
stringified HTTPException as its detail. -/
theorem c8_not_found_surfaces_500 :
    analyze_market none = HttpResult.httpError 500 "404: Coin data not found" :=
  rfl

/-- Claim C9: the classification is total — every input (NaN included) maps
to exactly one of the four (color, label) pairs, a NaN volatility falls
through every strict comparison into LOW, and color and label determine each
other 1:1 across all inputs. -/
theorem c9_classification_total :
    (∀ v : Fl,
       get_risk_level v = ("#ff2b2b", "EXTREME ☢️") ∨
       get_risk_level v = ("#ff9f1c", "HIGH 🔥") ∨
       get_risk_level v = ("#fbd400", "MODERATE ⚖️") ∨
       get_risk_level v = ("#2ec4b6", "LOW 🛡️")) ∧
    get_risk_level Fl.nan = ("#2ec4b6", "LOW 🛡️") ∧
    (∀ v w : Fl,
       ((get_risk_level v).1 = (get_risk_level w).1 ↔
        (get_risk_level v).2 = (get_risk_level w).2)) := by
  refine ⟨get_risk_level_cases, rfl, ?_⟩
  intro v w
  rcases get_risk_level_cases v with hv | hv | hv | hv <;>
    rcases get_risk_level_cases w with hw | hw | hw | hw <;>
      rw [hv, hw] <;> decide

/-- Claim C10: registration is insert-if-absent. An existing username, a
password mismatch, or an empty field leaves the users store unchanged; the
new entry is appended exactly when the username is absent, the passwords
match and both fields are non-empty; and an existing user's stored password
is never overwritten. -/
theorem c10_register_insert_if_absent :
    ∀ (users : List (String × String)) (nu npw cpw : String),
      ((users.lookup nu).isSome = true → register users nu npw cpw = users) ∧
      (npw ≠ cpw → register users nu npw cpw = users) ∧
      (nu = "" ∨ npw = "" → register users nu npw cpw = users) ∧
      (users.lookup nu = none → npw = cpw → nu ≠ "" → npw ≠ "" →
         register users nu npw cpw = users ++ [(nu, npw)]) ∧
      (∀ u, (users.lookup u).isSome = true →
         (register users nu npw cpw).lookup u = users.lookup u) := by
  intro users nu npw cpw
  refine ⟨?_, ?_, ?_, ?_, ?_⟩
  · intro h; simp [register, h]
  · intro h
    unfold register
    split_ifs <;> rfl
  · intro h
    unfold register
    split_ifs <;> rfl
  · intro h1 h2 h3 h4
    have h4b : ¬ (cpw = "") := h2 ▸ h4
    simp [register, h1, h2, h3, h4b]
  · intro u hu
    unfold register
    split_ifs
    · rfl
    · rfl
    · rfl
    · exact lookup_append_left users [(nu, npw)] u hu

/-- Witness for C10: a fresh username with matching non-empty passwords is
appended to the store. -/
theorem c10_witness :
    register [("admin", "1234")] "bob" "pw" "pw" =
      [("admin", "1234"), ("bob", "pw")] :=
  (c10_register_insert_if_absent [("admin", "1234")] "bob" "pw" "pw").2.2.2.1
    (by decide) rfl (by decide) (by decide)

/-- Claim C2, counterexample to the claim as stated: a division by a zero
price is NOT coerced to 0 in the output daily_returns — it surfaces as
+infinity, which `.fillna(0)` leaves untouched (fillna only replaces NaN).
Input: prices [0, 50]. -/
theorem c2_counterexample :
    (computeMetrics [(0, 0), (1, 50)]).daily_returns = [Fl.fin 0, Fl.pinf] ∧
    Fl.pinf ≠ Fl.fin 0 := by
  refine ⟨?_, fun h => Fl.noConfusion h⟩
  norm_num [computeMetrics, pctChange, pctAux, Fl.add, Fl.sub, Fl.neg, Fl.mul,
    Fl.div, Fl.isNaN, fillna0]

/-- Claim C2 (amended): no field of the output is ever NaN for any finite
input series (NaN daily returns are coerced to 0 by fillna, an undefined
volatility or max_drawdown is coerced to 0) — though an infinite daily
return from a zero-price division survives, see `c2_counterexample` — and
the degenerate all-equal series [50, 50, 50] yields returns all 0,
volatility 0, drawdown 0 and LOW risk. -/
theorem c2_no_nan_fields :
    (∀ samples : List (Int × ℚ),
       (computeMetrics samples).volatilitySq.isNaN = false ∧
       (computeMetrics samples).max_drawdown.isNaN = false ∧
       ∀ x ∈ (computeMetrics samples).daily_returns, x.isNaN = false) ∧
    ((computeMetrics [(0, 50), (1, 50), (2, 50)]).daily_returns
        = [Fl.fin 0, Fl.fin 0, Fl.fin 0] ∧
     (computeMetrics [(0, 50), (1, 50), (2, 50)]).volatilitySq = Fl.fin 0 ∧
     (computeMetrics [(0, 50), (1, 50), (2, 50)]).max_drawdown = Fl.fin 0 ∧
     (computeMetrics [(0, 50), (1, 50), (2, 50)]).risk_level = "LOW 🛡️") := by
  constructor
  · intro samples
    refine ⟨?_, ?_, ?_⟩
    · rw [computeMetrics_volatilitySq]; exact fillna0_isNaN _
    · rw [computeMetrics_max_drawdown]; exact fillna0_isNaN _
    · rw [computeMetrics_daily_returns]
      intro x hx
      obtain ⟨y, _, rfl⟩ := List.mem_map.mp hx
      exact fillna0_isNaN y
  · refine ⟨?_, ?_, ?_, ?_⟩ <;>
      norm_num [computeMetrics, pctChange, pctAux, cummax, cummaxAux, drawdowns,
        ddTerm, nanmin, nanvar, flSum, Fl.add, Fl.sub, Fl.neg, Fl.mul, Fl.div,
        Fl.isNaN, Fl.blt, Fl.minOp, fillna0, get_risk_level_sq, List.filter]

/-- Witness for C2's amended theorem: the membership hypothesis discharged at
a concrete return value of a concrete series. -/
theorem c2_witness :
    (computeMetrics [(0, 5), (1, 10)]).volatilitySq.isNaN = false ∧
    (Fl.fin 100).isNaN = false := by
  have hmem : (Fl.fin 100) ∈ (computeMetrics [(0, 5), (1, 10)]).daily_returns := by
    have he : (computeMetrics [(0, 5), (1, 10)]).daily_returns
        = [Fl.fin 0, Fl.fin 100] := by
      norm_num [computeMetrics, pctChange, pctAux, Fl.add, Fl.sub, Fl.neg,
        Fl.mul, Fl.div, Fl.isNaN, fillna0]
    rw [he]; simp
  exact ⟨(c2_no_nan_fields.1 [(0, 5), (1, 10)]).1,
         (c2_no_nan_fields.1 [(0, 5), (1, 10)]).2.2 (Fl.fin 100) hmem⟩

/-- Claim C3: for every non-empty series of nonnegative prices (the
data-model invariant), max_drawdown equals the minimum over all positions of
(price - running_peak) / running_peak * 100; this value is nonpositive; it
is exactly 0 for every strictly increasing series; and for [100, 110, 90,
120] it equals (90 - 110)/110 * 100 = -18.18...%. -/
theorem c3_max_drawdown_spec :
    (∀ (samples : List (Int × ℚ)), samples ≠ [] →
       (∀ p ∈ samples.map Prod.snd, 0 ≤ p) →
         (computeMetrics samples).max_drawdown
             = Fl.fin (specMaxDrawdown (samples.map Prod.snd)) ∧
         specMaxDrawdown (samples.map Prod.snd) ≤ 0 ∧
         (List.Chain' (· < ·) (samples.map Prod.snd) →
            (computeMetrics samples).max_drawdown = Fl.fin 0)) ∧
    (computeMetrics [(0, 100), (1, 110), (2, 90), (3, 120)]).max_drawdown
        = Fl.fin (((90 : ℚ) - 110) / 110 * 100) := by
  constructor
  · intro samples hne hnn
    obtain ⟨s0, srest, rfl⟩ := List.exists_cons_of_ne_nil hne
    have hmap : (s0 :: srest).map Prod.snd = s0.2 :: srest.map Prod.snd := rfl
    have hp0 : 0 ≤ s0.2 := hnn s0.2 (by simp)
    have hnn2 : ∀ q ∈ s0.2 :: srest.map Prod.snd, 0 ≤ q := by
      rw [← hmap]; exact hnn
    have hspec : specMaxDrawdown (s0.2 :: srest.map Prod.snd)
        = (specDDAux s0.2 (s0.2 :: srest.map Prod.snd)).foldr min 0 := rfl
    have hmain := nanmin_ddAux_spec (s0.2 :: srest.map Prod.snd) s0.2 hp0 hnn2
    by_cases hlen : (s0 :: srest).length < 2
    · have hr : srest = [] := by
        cases srest with
        | nil => rfl
        | cons a b => exfalso; simp only [List.length_cons] at hlen; omega
      subst hr
      have hdd : (computeMetrics [s0]).max_drawdown = Fl.fin 0 := by
        rw [computeMetrics_max_drawdown]; simp [fillna0, Fl.isNaN]
      have hspec0 : specMaxDrawdown ([s0].map Prod.snd) = 0 := by
        simp [specMaxDrawdown, specDDAux]
      exact ⟨by rw [hdd, hspec0], by rw [hspec0], fun _ => hdd⟩
    · have hdd : (computeMetrics (s0 :: srest)).max_drawdown
          = Fl.fin (specMaxDrawdown ((s0 :: srest).map Prod.snd)) := by
        rw [computeMetrics_max_drawdown, if_neg hlen, hmap, drawdowns_cons,
          hspec]
        exact hmain
      refine ⟨hdd, ?_, ?_⟩
      · rw [hmap, hspec]; exact foldr_min_zero_nonpos _
      · intro hchain
        rw [hmap] at hchain
        have h0 := specDDAux_chain (srest.map Prod.snd) s0.2 s0.2
          (le_refl s0.2) hchain
        rw [hdd, hmap, hspec, h0, foldr_min_replicate]
  · norm_num [computeMetrics, pctChange, pctAux, cummax, cummaxAux, drawdowns,
      ddTerm, nanmin, nanvar, flSum, Fl.add, Fl.sub, Fl.neg, Fl.mul, Fl.div,
      Fl.isNaN, Fl.blt, Fl.minOp, fillna0, List.filter]

/-- Witness for C3 at the concrete series [100, 110, 90, 120]. -/
theorem c3_witness :
    (computeMetrics [(0, 100), (1, 110), (2, 90), (3, 120)]).max_drawdown
      = Fl.fin (specMaxDrawdown [100, 110, 90, 120]) := by
  have h := (c3_max_drawdown_spec.1 [(0, 100), (1, 110), (2, 90), (3, 120)]
    (by simp) (by norm_num)).1
  simpa using h

/-- Claim C4, counterexample to the length-at-least-2 part as stated: with a
zero price inside the series ([1, 0, 50]), the infinite return makes the
pandas standard deviation NaN, so the code's volatility is coerced to 0,
while the spec-side sample standard deviation of the (coerced) daily percent
returns is far from 0 (its square times 365 is 1825000). -/
theorem c4_counterexample :
    (computeMetrics [(0, 1), (1, 0), (2, 50)]).volatilitySq = Fl.fin 0 ∧
    sampleVarQ (specDailyReturns [1, 0, 50]) * 365 = 1825000 ∧
    (computeMetrics [(0, 1), (1, 0), (2, 50)]).volatilitySq ≠
      Fl.fin (sampleVarQ (specDailyReturns [1, 0, 50]) * 365) := by
  have h1 : (computeMetrics [(0, 1), (1, 0), (2, 50)]).volatilitySq
      = Fl.fin 0 := by
    norm_num [computeMetrics, pctChange, pctAux, nanvar, flSum, Fl.add, Fl.sub,
      Fl.neg, Fl.mul, Fl.div, Fl.isNaN, fillna0, List.filter]
  have h2 : sampleVarQ (specDailyReturns [1, 0, 50]) * 365 = 1825000 := by
    norm_num [sampleVarQ, specDailyReturns, specDailyReturnsAux]
  refine ⟨h1, h2, ?_⟩
  rw [h1, h2]
  intro h
  exact absurd (Fl.fin.inj h) (by norm_num)

/-- Claim C4 (amended): volatility and max_drawdown are exactly 0 for any
series of length < 2 (deliberate short-circuit), and for every series of
length ≥ 2 with all prices positive (so no return is undefined) the
volatility equals the sample standard deviation (n-1 degrees of freedom) of
the daily percent returns, excluding the synthetic leading 0, times √365 —
stated on squares: volatilitySq = sampleVar * 365. -/
theorem c4_volatility_spec :
    (∀ samples : List (Int × ℚ), samples.length < 2 →
       (computeMetrics samples).volatilitySq = Fl.fin 0 ∧
       (computeMetrics samples).max_drawdown = Fl.fin 0) ∧
    (∀ samples : List (Int × ℚ), 2 ≤ samples.length →
       (∀ p ∈ samples.map Prod.snd, 0 < p) →
       (computeMetrics samples).volatilitySq
          = Fl.fin (sampleVarQ (specDailyReturns (samples.map Prod.snd)) * 365)) := by
  constructor
  · intro samples h
    constructor
    · rw [computeMetrics_volatilitySq, if_pos h]; rfl
    · rw [computeMetrics_max_drawdown, if_pos h]; rfl
  · intro samples hlen hpos
    have hlen2 : ¬ samples.length < 2 := not_lt.2 hlen
    have hneq : samples ≠ [] := by
      intro h; rw [h] at hlen; simp at hlen
    obtain ⟨s0, srest, rfl⟩ := List.exists_cons_of_ne_nil hneq
    have hmap : (s0 :: srest).map Prod.snd = s0.2 :: srest.map Prod.snd := rfl
    have hp0 : 0 < s0.2 := hpos s0.2 (by simp)
    have hposrest : ∀ q ∈ srest.map Prod.snd, 0 < q := fun q hq =>
      hpos q (by rw [hmap]; exact List.mem_cons_of_mem _ hq)
    have hpct : (pctChange ((s0 :: srest).map Prod.snd)).map
          (fun r => Fl.mul r (Fl.fin 100))
        = Fl.nan :: (specDailyReturnsAux s0.2 (srest.map Prod.snd)).map Fl.fin := by
      rw [hmap]
      simp only [pctChange, List.map_cons]
      rw [pct_map_pos (srest.map Prod.snd) s0.2 hp0 hposrest]
      rfl
    have hrslen : (specDailyReturnsAux s0.2 (srest.map Prod.snd)).length
        = srest.length := by
      rw [specDailyReturnsAux_length, List.length_map]
    have hspecd : specDailyReturns ((s0 :: srest).map Prod.snd)
        = specDailyReturnsAux s0.2 (srest.map Prod.snd) := rfl
    rw [computeMetrics_volatilitySq, if_neg hlen2, hpct, nanvar_nan_cons,
      hspecd]
    by_cases h1 : (specDailyReturnsAux s0.2 (srest.map Prod.snd)).length < 2
    · have hone : (specDailyReturnsAux s0.2 (srest.map Prod.snd)).length = 1 := by
        simp only [List.length_cons] at hlen
        omega
      obtain ⟨r, hr⟩ := List.length_eq_one.mp hone
      rw [if_pos h1, hr, sampleVarQ_singleton]
      norm_num [Fl.mul, fillna0, Fl.isNaN]
    · rw [if_neg h1, Fl.mul_fin, fillna0_fin]

/-- Witness for C4's amended theorem at the concrete series [10, 20, 10]. -/
theorem c4_witness :
    (computeMetrics [(0, 10), (1, 20), (2, 10)]).volatilitySq
      = Fl.fin (sampleVarQ (specDailyReturns [10, 20, 10]) * 365) := by
  have h := c4_volatility_spec.2 [(0, 10), (1, 20), (2, 10)]
    (by norm_num) (by norm_num)
  simpa using h

/-- Claim C6: for every non-empty input, the output daily_returns, prices
and timestamps all have the same length, and the first daily return is the
synthetic 0 for sample 0. -/
theorem c6_shape :
    ∀ (samples : List (Int × ℚ)), samples ≠ [] →
      (computeMetrics samples).daily_returns.length
          = (computeMetrics samples).prices.length ∧
      (computeMetrics samples).prices.length
          = (computeMetrics samples).timestamps.length ∧
      (computeMetrics samples).daily_returns.head? = some (Fl.fin 0) := by
  intro samples hne
  obtain ⟨s0, srest, rfl⟩ := List.exists_cons_of_ne_nil hne
  refine ⟨?_, ?_, ?_⟩
  · rw [computeMetrics_daily_returns, computeMetrics_prices]
    simp [pctChange_length]
  · rw [computeMetrics_prices, computeMetrics_timestamps]
    simp
  · rw [computeMetrics_daily_returns]
    simp [pctChange, fillna0, Fl.mul, Fl.isNaN]

/-- Witness for C6 at a concrete two-sample series. -/
theorem c6_witness :
    (computeMetrics [(0, 5), (1, 10)]).daily_returns.head? = some (Fl.fin 0) :=
  (c6_shape [(0, 5), (1, 10)] (by simp)).2.2

end CryptoRisk
